import Mathlib

/-!
# Shallow embedding of the `mtlbook/crawl1` novel crawler (src/script/script.js)

This file embeds the batched/retrying variant of the crawler (the first
`NovelCrawler` class in `src/script/script.js`, lines 1-260) and proves the
spec's claims about it.

Modelling conventions:
* Network effects are abstracted by function parameters.  `fetchPage` is a
  function from the attempt index to a result (`Except` error page), so a
  target that "fails k times then succeeds" is a function returning `.error`
  on attempts `0..k-1` and `.ok` on attempt `k`.  The page payload is a type
  parameter, since the crawler never inspects the cheerio document itself in
  the retry logic.
* Extraction rules (cheerio selectors) are out of scope per spec section 6:
  the fetch-and-extract composite for a list page / chapter page is a
  function from the URL string to the extracted structure.
* The JS code accumulates chapters by mutating `this.novelInfo.chapters`;
  the embedding threads the accumulator explicitly and returns it, which is
  the spec's own re-architecture of that shared state (spec section 9).
* Concurrency inside a batch (`Promise.all`) is modelled by an explicit
  completion schedule: the tasks of a batch finish in an arbitrary order
  (a list of task indices) and each completion writes its record into the
  slot pre-assigned by its input index, exactly as `Promise.all` collects
  results by input position and the loop writes `chapters[i + idx] = result`.
-/

/-- A chapter stub discovered on a list page: the object pushed by
`getChapterList` into `novelInfo.chapters` (`{title, url}`). -/
structure ChapterStub where
  title : String
  url : String
  deriving Repr, DecidableEq

/-- A downloaded chapter: `{...chapter, content}` as produced by
`processChapter` (the stub spread plus the resolved `content` string). -/
structure ChapterRecord where
  title : String
  url : String
  content : String
  deriving Repr, DecidableEq

/-- Novel metadata populated by `getNovelInfo` (the fields of
`this.novelInfo` other than `chapters`). -/
structure NovelMetadata where
  title : String
  description : String
  cover : String
  author : String
  genres : List String
  status : String
  source : String
  deriving Repr, DecidableEq

/-- `fetchWithRetry(url, retries)` (script.js lines 54-64): try `fetchPage`;
on failure, if the remaining budget is positive, wait the inter-request
delay, decrement the budget and retry; on exhaustion rethrow the last error.

`fetchPage` maps the attempt index (number of earlier attempts on this url)
to that attempt's outcome.  The second component of the result is the total
number of `fetchPage` attempts performed, counted from attempt index 0, so a
caller invoking `fetchWithRetry fetchPage url retries 0` observes exactly
that many attempts. -/
def fetchWithRetry {α : Type} (fetchPage : String → Nat → Except String α)
    (url : String) : Nat → Nat → Except String α × Nat
  | retries, attempt =>
    match fetchPage url attempt with
    | .ok page => (.ok page, attempt + 1)
    | .error e =>
      match retries with
      | r + 1 => fetchWithRetry fetchPage url r (attempt + 1)
      | 0 => (.error e, attempt + 1)

/-- The batch slicing of `downloadChaptersParallel`
(`for (let i = 0; i < total; i += concurrency) { chapters.slice(i, i + concurrency) ... }`).
For `c = 0` the JS loop never advances; the embedding returns `[]` in that
degenerate case (the spec only considers `c ≥ 1`). -/
def toBatches {α : Type} (c : Nat) (l : List α) : List (List α) :=
  match c, l with
  | _, [] => []
  | 0, _ :: _ => []
  | c + 1, x :: xs => ((x :: xs).take (c + 1)) :: toBatches (c + 1) ((x :: xs).drop (c + 1))
  termination_by l.length
  decreasing_by simp [List.length_drop]; omega

/-- One completion event of a batch task: the task with in-batch index `j`
finishes and its result is stored in slot `j` of the results array. -/
def batchStep {α β : Type} (task : α → β) (batch : List α)
    (arr : List (Option β)) (j : Nat) : List (Option β) :=
  match batch[j]? with
  | some a => arr.set j (some (task a))
  | none => arr

/-- One batch of `Promise.all(batch.map(...))` together with the write-back
`results.forEach((result, idx) => { chapters[i + idx] = result })`:
tasks complete in the order given by `order` (a list of in-batch indices),
and each completion stores its result in the slot pre-assigned by its input
index.  Slots whose task never completed stay `none`. -/
def runBatchWithSchedule {α β : Type} (task : α → β) (batch : List α)
    (order : List Nat) : List (Option β) :=
  order.foldl (batchStep task batch) (List.replicate batch.length none)

/-- `downloadChaptersParallel` with explicit completion schedules, one
schedule per batch (batches themselves run strictly sequentially:
`await Promise.all` finishes a batch before the next starts). -/
def downloadChaptersParallel {α β : Type} (task : α → β) (c : Nat)
    (stubs : List α) (scheds : List (List Nat)) : List (Option β) :=
  (((toBatches c stubs).zip scheds).map
    (fun p => runBatchWithSchedule task p.1 p.2)).flatten

/-- The value `downloadChaptersParallel` leaves in `novelInfo.chapters`:
each batch is mapped by the per-chapter task and results are written back at
their input positions, so the final array is the concatenation of the mapped
batches. -/
def downloadAll {α β : Type} (task : α → β) (c : Nat) (stubs : List α) :
    List β :=
  ((toBatches c stubs).map (fun batch => batch.map task)).flatten

/-!
## Regex-based content cleaning (script.js lines 126-139)

`getChapterContent` pipes the extracted HTML through ten
`String.prototype.replace(pattern, '')` calls.  The patterns use only these
regex constructs: literal characters, the classes `[^>]` and `["']`, the
whitespace class `\s`, the greedy stars `[^>]*` and `\s*`, the lazy star
`.*?` (with or without the `s` dot-all flag), the word boundary `\b` (always
right after a word character in these patterns), and the `i` flag.  The
mini-matcher below implements exactly these constructs with JS semantics:
leftmost match, greedy stars with backtracking, lazy star preferring the
shortest extension, and global replacement resuming after each match.
-/

/-- One regex token of the cleaning patterns. -/
inductive Tok where
  /-- A literal character (compared case-insensitively under the `i` flag). -/
  | lit : Char → Tok
  /-- A single-character class such as `["']`. -/
  | cls : List Char → Tok
  /-- A greedy star over a character predicate (`[^>]*`, `\s*`). -/
  | star : (Char → Bool) → Tok
  /-- The lazy star `.*?`; the flag tells whether `.` matches a newline
  (the JS `s` flag). -/
  | lazyAny : Bool → Tok
  /-- `\b` placed directly after a word character: matches iff the next
  character is not a word character (or the input ends). -/
  | wordB : Tok

/-- JS `\s` on the ASCII range (the cleaned HTML is ASCII-relevant here). -/
def isJsSpace (c : Char) : Bool :=
  c = ' ' || c = '\t' || c = '\n' || c = '\r' || c = '\x0b' || c = '\x0c'

/-- JS word character (`\w`), used by `\b`. -/
def isWordChar (c : Char) : Bool :=
  c.isAlpha || c.isDigit || c = '_'

/-- Character comparison, case-insensitive when `ci` is set (the `i` flag). -/
def charEq (ci : Bool) (a b : Char) : Bool :=
  if ci then a.toLower = b.toLower else a = b

/-- Match a token sequence against (a prefix of) `s`, returning the
remainder after the match.  Backtracking over greedy and lazy stars is the
JS behaviour: a greedy star consumes as much as possible first, a lazy star
as little as possible.  `fuel` bounds the recursion depth; every call site
passes at least `s.length + toks.length + 1`, which the structure of the
recursion (each step shrinks the input or the token list) never exhausts. -/
def matchToks (ci : Bool) : Nat → List Tok → List Char → Option (List Char)
  | 0, _, _ => none
  | _ + 1, [], s => some s
  | fuel + 1, t :: ts, s =>
    match t, s with
    | .lit c, x :: s' => if charEq ci c x then matchToks ci fuel ts s' else none
    | .lit _, [] => none
    | .cls cs, x :: s' =>
      if cs.any (fun c => charEq ci c x) then matchToks ci fuel ts s' else none
    | .cls _, [] => none
    | .wordB, s =>
      match s with
      | [] => matchToks ci fuel ts []
      | x :: _ => if isWordChar x then none else matchToks ci fuel ts s
    | .star p, x :: s' =>
      if p x then
        match matchToks ci fuel (.star p :: ts) s' with
        | some r => some r
        | none => matchToks ci fuel ts (x :: s')
      else matchToks ci fuel ts (x :: s')
    | .star _, [] => matchToks ci fuel ts []
    | .lazyAny dotAll, s =>
      match matchToks ci fuel ts s with
      | some r => some r
      | none =>
        match s with
        | [] => none
        | x :: s' =>
          if dotAll || x ≠ '\n' then matchToks ci fuel (.lazyAny dotAll :: ts) s'
          else none

/-- Try a match of the whole pattern at the head of `s`. -/
def matchRE (ci : Bool) (toks : List Tok) (s : List Char) : Option (List Char) :=
  matchToks ci (s.length + toks.length + 1) toks s

/-- Global replacement by the empty string (`.replace(/pat/g..., '')`):
scan left to right, at each position try the pattern; on a (non-empty)
match drop it and resume after the match, otherwise keep the character and
advance.  `fuel` (initially the input length) bounds the scan. -/
def replaceAllAux (ci : Bool) (toks : List Tok) : Nat → List Char → List Char
  | 0, s => s
  | _ + 1, [] => []
  | fuel + 1, x :: s =>
    match matchRE ci toks (x :: s) with
    | some r =>
      if r.length ≤ s.length then replaceAllAux ci toks fuel r
      else x :: replaceAllAux ci toks fuel s
    | none => x :: replaceAllAux ci toks fuel s

/-- `str.replace(pattern, '')` with the `g` flag. -/
def regexReplaceAll (ci : Bool) (toks : List Tok) (s : String) : String :=
  ⟨replaceAllAux ci toks s.data.length s.data⟩

/-- Literal characters of a pattern fragment. -/
def lits (s : String) : List Tok := s.data.map Tok.lit

/-- `[^>]*` -/
def notGtStar : Tok := .star (fun c => c ≠ '>')

/-- `\s*` -/
def spaceStar : Tok := .star isJsSpace

/-- The cleanup chain of `getChapterContent` (script.js lines 129-139), in
source order:
`/<iframe[^>]*>.*?<\/iframe>/g`, `/<!--.*?-->/gs`, `/<p>\s*<\/p>/g`,
`/<img[^>]*>/g`, `/<js[^>]*>/g`, `/<script\b[^>]*>.*?<\/script>/gsi`,
`/<noscript\b[^>]*>.*?<\/noscript>/gsi`,
`/<div[^>]*class\s*=\s*["']ads[^>]*>.*?<\/div>/gsi`,
`/<div[^>]*>\s*<\/div>/gsi`, `/<p>Source: .*?novlove\.com<\/p>/gi`. -/
def cleanContent (s : String) : String :=
  let s1 := regexReplaceAll false
    (lits "<iframe" ++ [notGtStar] ++ lits ">" ++ [Tok.lazyAny false] ++ lits "</iframe>") s
  let s2 := regexReplaceAll false
    (lits "<!--" ++ [Tok.lazyAny true] ++ lits "-->") s1
  let s3 := regexReplaceAll false
    (lits "<p>" ++ [spaceStar] ++ lits "</p>") s2
  let s4 := regexReplaceAll false
    (lits "<img" ++ [notGtStar] ++ lits ">") s3
  let s5 := regexReplaceAll false
    (lits "<js" ++ [notGtStar] ++ lits ">") s4
  let s6 := regexReplaceAll true
    (lits "<script" ++ [Tok.wordB, notGtStar] ++ lits ">" ++ [Tok.lazyAny true] ++ lits "</script>") s5
  let s7 := regexReplaceAll true
    (lits "<noscript" ++ [Tok.wordB, notGtStar] ++ lits ">" ++ [Tok.lazyAny true] ++ lits "</noscript>") s6
  let s8 := regexReplaceAll true
    (lits "<div" ++ [notGtStar] ++ lits "class" ++ [spaceStar] ++ lits "=" ++ [spaceStar] ++
      [Tok.cls ['"', '\'']] ++ lits "ads" ++ [notGtStar] ++ lits ">" ++ [Tok.lazyAny true] ++ lits "</div>") s7
  let s9 := regexReplaceAll true
    (lits "<div" ++ [notGtStar] ++ lits ">" ++ [spaceStar] ++ lits "</div>") s8
  regexReplaceAll true
    (lits "<p>Source: " ++ [Tok.lazyAny false] ++ lits "novlove.com</p>") s9

/-!
## Chapter content extraction and per-chapter processing
-/

/-- What the chapter-page extraction rules read from a fetched chapter page:
the untrimmed texts of `.col-xs-12 a.truyen-title` and `.col-xs-12 h2`, and
`$('#chapter-content').html()` (which is `null`, i.e. `none`, when the
selector matches no element). -/
structure ChapterPage where
  truyenTitle : String
  heading : String
  contentHtml : Option String
  deriving Repr, DecidableEq

/-- JS `String.prototype.trim()`: strip leading and trailing whitespace. -/
def jsTrim (s : String) : String :=
  ⟨((s.data.dropWhile Char.isWhitespace).reverse.dropWhile
      Char.isWhitespace).reverse⟩

/-- The `{title, content}` object returned by `getChapterContent`. -/
structure TitleContent where
  title : String
  content : String
  deriving Repr, DecidableEq

/-- `getChapterContent(chapterUrl)` (script.js lines 121-142).  `fetchCh`
is the composite of `fetchWithRetry` and the chapter-page extraction rules
(`.error` when all fetch attempts are exhausted).  The title template is
`` `${title.trim()} - ${h2.trim()}` ``; the content falls back to
`'Chapter content not found'` when the selector yields nothing and is then
piped through the cleanup chain. -/
def getChapterContent (fetchCh : String → Except String ChapterPage)
    (chapterUrl : String) : Except String TitleContent :=
  match fetchCh chapterUrl with
  | .error e => .error e
  | .ok page =>
    let chapterTitle := jsTrim page.truyenTitle ++ " - " ++ jsTrim page.heading
    let content := page.contentHtml.getD "Chapter content not found"
    .ok ⟨chapterTitle, cleanContent content⟩

/-- `processChapter(chapter, index, total)` (script.js lines 109-119): try
`getChapterContent`, then wait the inter-request delay, then return
`{...chapter, content}`; on any error return `{...chapter, content:
'Failed to load content'}` from the catch handler (which does not wait).
The second component records how long the task waited *after*
`getChapterContent` returned (the `await setTimeout(delayBetweenRequests)`
on the success path; the catch path returns immediately). -/
def processChapter (fetchCh : String → Except String ChapterPage)
    (delay : Nat) (chapter : ChapterStub) : ChapterRecord × Nat :=
  match getChapterContent fetchCh chapter.url with
  | .ok tc => (⟨chapter.title, chapter.url, tc.content⟩, delay)
  | .error _ => (⟨chapter.title, chapter.url, "Failed to load content"⟩, 0)

/-!
## Chapter-list discovery (script.js lines 90-107)
-/

/-- What the list-page extraction rules read from a fetched list page: the
chapter stubs in document order (`$('.list-chapter li a').each(...)`, href
already resolved against the novel URL) and the optional next-page link
(`$('.pagination li.next a').attr('href')`, resolved likewise). -/
structure ListPage where
  stubs : List ChapterStub
  nextPageLink : Option String
  deriving Repr, DecidableEq

/-- `getChapterList(pageUrl)` (script.js lines 90-107).  `site` is the
composite of `fetchWithRetry` and the list-page extraction (`.error` when
the page's fetch attempts are exhausted); each call to `site` is one
fetched page.  The JS pushes stubs onto the shared `novelInfo.chapters` and
recurses on the next-page link; the embedding threads the accumulator `acc`
explicitly and additionally returns the list of fetched page URLs (the
fetch trace).  A fetch error anywhere aborts the whole walk (`await`
rethrows through every recursion level).  `fuel` makes the non-structural
recursion total; any fuel of at least the chain length reproduces the JS
behaviour. -/
def getChapterList (site : String → Except String ListPage) :
    Nat → String → List ChapterStub → Except String (List ChapterStub × List String)
  | 0, _, _ => .error "out of fuel"
  | fuel + 1, url, acc =>
    match site url with
    | .error e => .error e
    | .ok page =>
      let acc' := acc ++ page.stubs
      match page.nextPageLink with
      | none => .ok (acc', [url])
      | some next =>
        match getChapterList site fuel next acc' with
        | .error e => .error e
        | .ok (stubs, trace) => .ok (stubs, url :: trace)

/-!
## Assembly (`saveToEpub`, script.js lines 165-224)
-/

/-- `title.replace(/[^a-z0-9]/gi, '_')` (script.js line 180): every
character outside `[A-Za-z0-9]` becomes `_`. -/
def sanitizeTitle (t : String) : String :=
  t.map (fun c =>
    if ('a' ≤ c && c ≤ 'z') || ('A' ≤ c && c ≤ 'Z') || ('0' ≤ c && c ≤ '9')
    then c else '_')

/-- `path.join(process.cwd(), 'results', sanitizedTitle + '.epub')`
(script.js line 181), relative to the working directory. -/
def epubOutputPath (title : String) : String :=
  "results/" ++ sanitizeTitle title ++ ".epub"

/-- One entry of the epub-gen `content` array. -/
structure ContentItem where
  title : String
  data : String
  beforeToc : Bool
  filename : Option String
  deriving Repr, DecidableEq

/-- The full epub-gen options object built by `saveToEpub`. -/
structure EpubOptions where
  title : String
  author : String
  publisher : String
  cover : String
  css : String
  content : List ContentItem
  appendChapterTitles : Bool
  verbose : Bool
  deriving Repr, DecidableEq

/-- `getCoverXhtmlContent()` (script.js lines 165-177): the XHTML cover page
template with the title and cover URL interpolated. -/
def getCoverXhtmlContent (meta : NovelMetadata) : String :=
  "<?xml version=\"1.0\" encoding=\"UTF-8\"?>\n<!DOCTYPE html>\n<html xmlns=\"http://www.w3.org/1999/xhtml\" xmlns:epub=\"http://www.idpf.org/2007/ops\" lang=\"en\" xml:lang=\"en\">\n    <head>\n        <title>" ++
  meta.title ++
  "</title>\n        <link rel=\"stylesheet\" type=\"text/css\" href=\"css/epub.css\" />\n    </head>\n    <body>\n        <img src=\"" ++
  meta.cover ++
  "\" alt=\"Cover Image\" style=\"height:auto;width:100%;\" title=\"Cover Image\" />\n    </body>\n</html>"

/-- The `Information` page template (script.js lines 202-210). -/
def infoPageData (meta : NovelMetadata) : String :=
  "\n                        <h1>" ++ meta.title ++ "</h1>\n                        <h2>by " ++
  meta.author ++ "</h2>\n                        <p><strong>Status:</strong> " ++
  meta.status ++ "</p>\n                        <p><strong>Genres:</strong> " ++
  String.intercalate ", " meta.genres ++ "</p>\n                        <p><strong>Source:</strong> " ++
  meta.source ++ "</p>\n                        <h3>Description</h3>\n                        " ++
  meta.description ++ "\n                    "

/-- The options object of `saveToEpub` (script.js lines 187-220): metadata
fields, the fixed css, and the content array `[cover page, information
page, ...chapters.map(ch => ({title: ch.title, data: ch.content}))]`.  This
is the Assembler of the spec: a pure function of the metadata and the
ordered chapter records. -/
def buildEpubOptions (meta : NovelMetadata) (chapters : List ChapterRecord) :
    EpubOptions where
  title := meta.title
  author := meta.author
  publisher := meta.source
  cover := meta.cover
  css := "p \x7bfont-family:serif;\x7d"
  content :=
    ⟨"Cover", getCoverXhtmlContent meta, true, some "cover.xhtml"⟩ ::
    ⟨"Information", infoPageData meta, true, none⟩ ::
    chapters.map (fun ch => ⟨ch.title, ch.content, false, none⟩)
  appendChapterTitles := false
  verbose := true

/-!
## Orchestration (`crawl`, script.js lines 226-240) and the CLI
(script.js lines 244-260)
-/

/-- `crawl()` (script.js lines 226-240): fetch metadata, walk the chapter
list, download all chapters in batches (every per-chapter failure already
absorbed by `processChapter`), then assemble the epub options.  `metaFetch`
is the composite of `fetchWithRetry` on the novel URL and the metadata
extraction; a rejection of any awaited phase propagates out of `crawl`. -/
def crawl (metaFetch : Except String NovelMetadata)
    (site : String → Except String ListPage)
    (fetchCh : String → Except String ChapterPage)
    (delay concurrency fuel : Nat) (novelUrl : String) :
    Except String EpubOptions := do
  let meta ← metaFetch
  let (stubs, _) ← getChapterList site fuel novelUrl []
  let records := downloadAll (fun ch => (processChapter fetchCh delay ch).1)
    concurrency stubs
  pure (buildEpubOptions meta records)

/-- `crawler.crawl().catch(err => { ...; process.exit(1) })` (script.js
lines 257-260): a rejected run exits with code 1, a completed run exits
normally with code 0. -/
def crawlExitCode (result : Except String EpubOptions) : Nat :=
  match result with
  | .ok _ => 0
  | .error _ => 1

/-- The CLI entry (script.js lines 244-260).  `argv2` is `process.argv[2]`;
`runCrawl` maps the URL to the crawl outcome together with the list of
fetches the run performed.  A missing URL prints the usage error and exits
with code 1 before any crawler is constructed, so `runCrawl` is not invoked
and no fetch happens.  The result is `(exit code, stderr lines, fetches)`. -/
def mainProgram (argv2 : Option String)
    (runCrawl : String → Except String EpubOptions × List String) :
    Nat × List String × List String :=
  match argv2 with
  | none => (1, ["Please provide a novel URL as an argument"], [])
  | some url =>
    match runCrawl url with
    | (.ok _, fetches) => (0, [], fetches)
    | (.error e, fetches) => (1, ["Crawler error: " ++ e], fetches)

/-!
## Helper lemmas: batch scheduling
-/

theorem batchStep_length {α β : Type} (task : α → β) (batch : List α)
    (arr : List (Option β)) (j : Nat) :
    (batchStep task batch arr j).length = arr.length := by
  unfold batchStep
  cases batch[j]? <;> simp

theorem foldl_batchStep_length {α β : Type} (task : α → β) (batch : List α)
    (order : List Nat) (arr : List (Option β)) :
    (order.foldl (batchStep task batch) arr).length = arr.length := by
  induction order generalizing arr with
  | nil => rfl
  | cons o rest ih => rw [List.foldl_cons, ih, batchStep_length]

theorem foldl_batchStep_not_mem {α β : Type} (task : α → β) (batch : List α)
    (order : List Nat) (arr : List (Option β)) (j : Nat) (hj : j ∉ order) :
    (order.foldl (batchStep task batch) arr)[j]? = arr[j]? := by
  induction order generalizing arr with
  | nil => rfl
  | cons o rest ih =>
    rw [List.mem_cons, not_or] at hj
    rw [List.foldl_cons, ih _ hj.2]
    unfold batchStep
    cases batch[o]? with
    | none => rfl
    | some a => exact List.getElem?_set_ne (fun h => hj.1 h.symm)

theorem foldl_batchStep_mem {α β : Type} (task : α → β) (batch : List α)
    (order : List Nat) (arr : List (Option β)) (j : Nat) (a : α)
    (ha : batch[j]? = some a) (hj : j ∈ order) (hlen : j < arr.length) :
    (order.foldl (batchStep task batch) arr)[j]? = some (some (task a)) := by
  induction order generalizing arr with
  | nil => cases hj
  | cons o rest ih =>
    rw [List.foldl_cons]
    by_cases hmem : j ∈ rest
    · exact ih _ hmem (by rw [batchStep_length]; exact hlen)
    · have hjo : j = o := by
        rcases List.mem_cons.mp hj with h | h
        · exact h
        · exact absurd h hmem
      subst hjo
      rw [foldl_batchStep_not_mem _ _ _ _ _ hmem]
      unfold batchStep
      rw [ha]
      exact List.getElem?_set_self hlen

/-- A batch whose completion order is any permutation of its index range
fills every slot with the task's result at that slot: `Promise.all`
collects by input position regardless of completion order. -/
theorem runBatchWithSchedule_perm {α β : Type} (task : α → β) (batch : List α)
    (order : List Nat) (h : order.Perm (List.range batch.length)) :
    runBatchWithSchedule task batch order = (batch.map task).map some := by
  apply List.ext_getElem?
  intro j
  by_cases hj : j < batch.length
  · have hmem : j ∈ order := h.mem_iff.mpr (List.mem_range.mpr hj)
    have ha : batch[j]? = some batch[j] := List.getElem?_eq_getElem hj
    unfold runBatchWithSchedule
    rw [foldl_batchStep_mem task batch order _ j _ ha hmem (by simpa using hj)]
    rw [List.getElem?_map, List.getElem?_map, ha]
    rfl
  · have h1 : (runBatchWithSchedule task batch order).length ≤ j := by
      unfold runBatchWithSchedule
      rw [foldl_batchStep_length, List.length_replicate]
      omega
    have h2 : (((batch.map task).map some).length ≤ j) := by
      simpa using Nat.le_of_not_lt hj
    rw [List.getElem?_eq_none_iff.mpr h1, List.getElem?_eq_none_iff.mpr h2]

/-- The batches of `downloadChaptersParallel` partition the input: their
concatenation is the input sequence (for a positive concurrency limit). -/
theorem toBatches_flatten {α : Type} (c : Nat) (hc : 1 ≤ c) (l : List α) :
    (toBatches c l).flatten = l := by
  match c, l with
  | 0, _ => omega
  | c + 1, [] => simp [toBatches]
  | c + 1, x :: xs =>
    rw [toBatches, List.flatten_cons,
      toBatches_flatten (c + 1) hc ((x :: xs).drop (c + 1)),
      List.take_append_drop]
  termination_by l.length
  decreasing_by simp [List.length_drop]; omega

theorem zip_runBatchWithSchedule {α β : Type} (task : α → β) :
    ∀ (batches : List (List α)) (scheds : List (List Nat)),
    scheds.length = batches.length →
    (∀ p ∈ batches.zip scheds, List.Perm p.2 (List.range p.1.length)) →
    (batches.zip scheds).map (fun p => runBatchWithSchedule task p.1 p.2)
      = batches.map (fun b => (b.map task).map some)
  | [], [], _, _ => rfl
  | [], _ :: _, h, _ => by simp at h
  | _ :: _, [], h, _ => by simp at h
  | b :: bs, s :: ss, h, hp => by
    rw [List.zip_cons_cons, List.map_cons, List.map_cons,
      runBatchWithSchedule_perm task b s (hp (b, s) (List.mem_cons_self _ _)),
      zip_runBatchWithSchedule task bs ss (by simpa using h)
        (fun p hmem => hp p (List.mem_cons_of_mem _ hmem))]

/-- `processChapter` keeps the stub's title and locator on both the success
and the failure path (`{...chapter, content}`). -/
theorem processChapter_preserves (fetchCh : String → Except String ChapterPage)
    (delay : Nat) (s : ChapterStub) :
    ((processChapter fetchCh delay s).1).title = s.title
    ∧ ((processChapter fetchCh delay s).1).url = s.url := by
  unfold processChapter
  cases getChapterContent fetchCh s.url <;> exact ⟨rfl, rfl⟩

/-- Under per-batch completion schedules that are permutations of the batch
index ranges, the scheduled downloader computes exactly the deterministic
write-back result (every slot filled). -/
theorem downloadChaptersParallel_eq_downloadAll {α β : Type} (task : α → β)
    (c : Nat) (stubs : List α) (scheds : List (List Nat))
    (hlen : scheds.length = (toBatches c stubs).length)
    (hperm : ∀ p ∈ (toBatches c stubs).zip scheds,
      List.Perm p.2 (List.range p.1.length)) :
    downloadChaptersParallel task c stubs scheds
      = (downloadAll task c stubs).map some := by
  unfold downloadChaptersParallel downloadAll
  rw [zip_runBatchWithSchedule task _ _ hlen hperm, List.map_flatten,
    List.map_map]
  rfl

/-- **C1.** For every input sequence of chapter stubs (including the empty
one) and every concurrency limit `c ≥ 1`, the batch downloader produces
exactly one record per stub, and the record at position `i` keeps the title
and locator of the stub at position `i`, for *every* completion order of
the concurrent tasks within each batch (any per-batch permutation
schedule). -/
theorem downloadChaptersParallel_ordered
    (fetchCh : String → Except String ChapterPage) (delay c : Nat)
    (stubs : List ChapterStub) (scheds : List (List Nat))
    (hc : 1 ≤ c)
    (hlen : scheds.length = (toBatches c stubs).length)
    (hperm : ∀ p ∈ (toBatches c stubs).zip scheds,
      List.Perm p.2 (List.range p.1.length)) :
    downloadChaptersParallel (fun ch => (processChapter fetchCh delay ch).1)
        c stubs scheds
      = (stubs.map (fun ch => (processChapter fetchCh delay ch).1)).map some
    ∧ (downloadChaptersParallel (fun ch => (processChapter fetchCh delay ch).1)
        c stubs scheds).length = stubs.length
    ∧ ∀ i, (hi : i < stubs.length) →
        ∃ rec : ChapterRecord,
          (downloadChaptersParallel
              (fun ch => (processChapter fetchCh delay ch).1) c stubs scheds)[i]?
            = some (some rec)
          ∧ rec.title = stubs[i].title ∧ rec.url = stubs[i].url := by
  have hmain : downloadChaptersParallel
      (fun ch => (processChapter fetchCh delay ch).1) c stubs scheds
      = (stubs.map (fun ch => (processChapter fetchCh delay ch).1)).map some := by
    rw [downloadChaptersParallel_eq_downloadAll _ _ _ _ hlen hperm]
    unfold downloadAll
    rw [← List.map_flatten, toBatches_flatten c hc]
  refine ⟨hmain, ?_, ?_⟩
  · rw [hmain]; simp
  · intro i hi
    refine ⟨(processChapter fetchCh delay stubs[i]).1, ?_, ?_, ?_⟩
    · rw [hmain, List.getElem?_map, List.getElem?_map,
        List.getElem?_eq_getElem hi]
      rfl
    · exact (processChapter_preserves fetchCh delay stubs[i]).1
    · exact (processChapter_preserves fetchCh delay stubs[i]).2

/-- Witness for C1: five stubs, concurrency 2, jittered completion orders
in every batch (`[1,0]`, `[0,1]`, `[0]`), a fetch function that fails on
one chapter: the downloader still returns the five records in input order. -/
theorem downloadChaptersParallel_ordered_witness :
    downloadChaptersParallel
        (fun ch => (processChapter
          (fun u => if u = "u2" then .error "boom"
            else .ok ⟨"T", "H", some ("body of " ++ u)⟩) 200 ch).1)
        2
        [⟨"c0", "u0"⟩, ⟨"c1", "u1"⟩, ⟨"c2", "u2"⟩, ⟨"c3", "u3"⟩, ⟨"c4", "u4"⟩]
        [[1, 0], [0, 1], [0]]
      = ([⟨"c0", "u0"⟩, ⟨"c1", "u1"⟩, ⟨"c2", "u2"⟩, ⟨"c3", "u3"⟩,
          ⟨"c4", "u4"⟩].map (fun ch => (processChapter
            (fun u => if u = "u2" then .error "boom"
              else .ok ⟨"T", "H", some ("body of " ++ u)⟩) 200 ch).1)).map some :=
  (downloadChaptersParallel_ordered
    (fun u => if u = "u2" then .error "boom"
      else .ok ⟨"T", "H", some ("body of " ++ u)⟩) 200 2
    [⟨"c0", "u0"⟩, ⟨"c1", "u1"⟩, ⟨"c2", "u2"⟩, ⟨"c3", "u3"⟩, ⟨"c4", "u4"⟩]
    [[1, 0], [0, 1], [0]]
    (by decide)
    (by simp [toBatches])
    (by simp [toBatches]; decide)).1

/-!
## Helper lemmas: retry counting
-/

/-- Starting at attempt index `a` with budget `r`, `fetchWithRetry`
performs at most `r + 1` further attempts. -/
theorem fetchWithRetry_attempts_le {α : Type}
    (fetchPage : String → Nat → Except String α) (url : String) :
    ∀ (r a : Nat), (fetchWithRetry fetchPage url r a).2 ≤ a + r + 1 := by
  intro r
  induction r with
  | zero =>
    intro a
    rw [fetchWithRetry]
    cases fetchPage url a <;> simp
  | succ r ih =>
    intro a
    rw [fetchWithRetry]
    cases fetchPage url a with
    | ok p => simp
    | error e =>
      calc (fetchWithRetry fetchPage url r (a + 1)).2 ≤ a + 1 + r + 1 := ih (a + 1)
        _ = a + (r + 1) + 1 := by omega

/-- If, starting at attempt `a`, the next `j` attempts fail and attempt
`a + j` succeeds, then with any budget `r ≥ j` the wrapper returns that
success after exactly `j + 1` attempts beyond index `a`. -/
theorem fetchWithRetry_succeeds_after {α : Type}
    (fetchPage : String → Nat → Except String α) (url : String) (p : α) :
    ∀ (j r a : Nat), j ≤ r →
    (∀ i, a ≤ i → i < a + j → ∃ e, fetchPage url i = .error e) →
    fetchPage url (a + j) = .ok p →
    fetchWithRetry fetchPage url r a = (.ok p, a + j + 1) := by
  intro j
  induction j with
  | zero =>
    intro r a _ _ hsucc
    rw [fetchWithRetry]
    rw [Nat.add_zero] at hsucc
    rw [hsucc]
  | succ j ih =>
    intro r a hj herr hsucc
    obtain ⟨e, he⟩ := herr a (Nat.le_refl a) (by omega)
    obtain ⟨r', rfl⟩ : ∃ r', r = r' + 1 := ⟨r - 1, by omega⟩
    rw [fetchWithRetry, he]
    have hrec := ih r' (a + 1) (by omega)
      (fun i hi hi' => herr i (by omega) (by omega))
      (by rw [show a + 1 + j = a + (j + 1) by omega]; exact hsucc)
    show fetchWithRetry fetchPage url r' (a + 1) = (Except.ok p, a + (j + 1) + 1)
    rw [hrec, show a + 1 + j + 1 = a + (j + 1) + 1 by omega]

/-- If every attempt from `a` through `a + r` fails, the wrapper exhausts
the budget and returns the error of the last attempt after exactly `r + 1`
attempts beyond index `a`. -/
theorem fetchWithRetry_exhausts {α : Type}
    (fetchPage : String → Nat → Except String α) (url : String)
    (es : Nat → String) :
    ∀ (r a : Nat),
    (∀ i, a ≤ i → i ≤ a + r → fetchPage url i = .error (es i)) →
    fetchWithRetry fetchPage url r a = (.error (es (a + r)), a + r + 1) := by
  intro r
  induction r with
  | zero =>
    intro a herr
    rw [fetchWithRetry, herr a (Nat.le_refl a) (by omega)]
    show (Except.error (es a), a + 1) = (Except.error (es (a + 0)), a + 0 + 1)
    rfl
  | succ r ih =>
    intro a herr
    rw [fetchWithRetry, herr a (Nat.le_refl a) (by omega)]
    have hrec := ih (a + 1) (fun i hi hi' => herr i (by omega) (by omega))
    show fetchWithRetry fetchPage url r (a + 1)
      = (Except.error (es (a + (r + 1))), a + (r + 1) + 1)
    rw [hrec, show a + 1 + r = a + (r + 1) by omega]

/-- **C2.** The retry wrapper performs at most `retries + 1` underlying
fetch attempts; a target failing exactly `k ≤ retries` times then
succeeding yields that success after `k + 1` observed attempts; a target
failing on all `retries + 1` attempts yields failure after exactly
`retries + 1` observed attempts, propagating the error of the last
attempt. -/
theorem fetchWithRetry_retry_budget {α : Type}
    (fetchPage : String → Nat → Except String α) (url : String)
    (r k : Nat) (p : α) (es : Nat → String) :
    (fetchWithRetry fetchPage url r 0).2 ≤ r + 1
    ∧ (k ≤ r → (∀ i, i < k → ∃ e, fetchPage url i = .error e) →
        fetchPage url k = .ok p →
        fetchWithRetry fetchPage url r 0 = (.ok p, k + 1))
    ∧ ((∀ i, i ≤ r → fetchPage url i = .error (es i)) →
        fetchWithRetry fetchPage url r 0 = (.error (es r), r + 1)) := by
  refine ⟨?_, ?_, ?_⟩
  · simpa using fetchWithRetry_attempts_le fetchPage url r 0
  · intro hk herr hsucc
    simpa using fetchWithRetry_succeeds_after fetchPage url p k r 0 hk
      (by simpa using herr) (by simpa using hsucc)
  · intro herr
    simpa using fetchWithRetry_exhausts fetchPage url es r 0
      (by simpa using herr)

/-- Witness for C2: with budget 2, a target failing attempts 0 and 1 and
succeeding at attempt 2 returns success after 3 attempts; a target failing
every attempt returns the last attempt's error after exactly 3 attempts. -/
theorem fetchWithRetry_retry_budget_witness :
    fetchWithRetry
        (fun _ i => if i < 2 then .error (toString i) else .ok 7) "u" 2 0
      = (.ok 7, 3)
    ∧ fetchWithRetry
        (fun (_ : String) (i : Nat) => (.error (toString i) : Except String Nat))
        "u" 2 0
      = (.error (toString 2), 3) := by
  constructor
  · exact (fetchWithRetry_retry_budget
      (fun _ i => if i < 2 then .error (toString i) else .ok 7) "u" 2 2 7
      toString).2.1 (by omega)
      (fun i hi => ⟨toString i, by simp [hi]⟩) rfl
  · exact (fetchWithRetry_retry_budget
      (fun _ i => (.error (toString i) : Except String Nat)) "u" 2 2 7
      toString).2.2 (fun i _ => rfl)

/-!
## Helper lemmas: chapter-list walking
-/

/-- Walking a successful chain of list pages from position `j`: page `i`
lives at URL `u i`, yields `(pages i).stubs`, and links to page `i + 1`
except for the last page `k - 1`.  The walk returns the accumulator
followed by the concatenation of the remaining pages' stubs in page order,
and fetches exactly the remaining pages' URLs in order. -/
theorem getChapterList_chain_from (site : String → Except String ListPage)
    (pages : Nat → ListPage) (u : Nat → String) (k : Nat)
    (hsite : ∀ i, i < k → site (u i) = .ok (pages i))
    (hnext : ∀ i, i < k →
      (pages i).nextPageLink = if i + 1 < k then some (u (i + 1)) else none) :
    ∀ (fuel j : Nat) (acc : List ChapterStub), j < k → k - j ≤ fuel →
    getChapterList site fuel (u j) acc
      = .ok (acc ++ ((List.range' j (k - j)).map (fun i => (pages i).stubs)).flatten,
             (List.range' j (k - j)).map u) := by
  intro fuel
  induction fuel with
  | zero => intro j acc hj hfuel; omega
  | succ fuel ih =>
    intro j acc hj hfuel
    rw [getChapterList, hsite j hj]
    simp only [hnext j hj]
    by_cases hlast : j + 1 < k
    · rw [if_pos hlast]
      have hrec := ih (j + 1) (acc ++ (pages j).stubs) hlast (by omega)
      show (match getChapterList site fuel (u (j + 1)) (acc ++ (pages j).stubs) with
        | .error e => .error e
        | .ok (stubs, trace) => .ok (stubs, u j :: trace))
        = Except.ok
            (acc ++ ((List.range' j (k - j)).map (fun i => (pages i).stubs)).flatten,
             (List.range' j (k - j)).map u)
      rw [hrec, show k - j = (k - (j + 1)) + 1 by omega, List.range'_succ]
      simp [List.append_assoc]
    · rw [if_neg hlast]
      have hkj : k - j = 1 := by omega
      rw [hkj]
      show Except.ok (acc ++ (pages j).stubs, [u j])
        = Except.ok (acc ++ ((List.range' j 1).map (fun i => (pages i).stubs)).flatten,
            (List.range' j 1).map u)
      simp

/-- If pages `0..j-1` of the walk succeed and link onward, and the fetch of
page `j` fails, the walk starting anywhere at or before `j` propagates that
error. -/
theorem getChapterList_chain_error_from (site : String → Except String ListPage)
    (pages : Nat → ListPage) (u : Nat → String) (j : Nat) (e : String)
    (hsite : ∀ i, i < j → site (u i) = .ok (pages i))
    (hnext : ∀ i, i < j → (pages i).nextPageLink = some (u (i + 1)))
    (herr : site (u j) = .error e) :
    ∀ (fuel i : Nat) (acc : List ChapterStub), i ≤ j → j - i < fuel →
    getChapterList site fuel (u i) acc = .error e := by
  intro fuel
  induction fuel with
  | zero => intro i acc hi hfuel; omega
  | succ fuel ih =>
    intro i acc hi hfuel
    by_cases hij : i = j
    · subst hij
      rw [getChapterList, herr]
    · have hilt : i < j := by omega
      rw [getChapterList, hsite i hilt]
      simp only [hnext i hilt]
      rw [ih (i + 1) (acc ++ (pages i).stubs) (by omega) (by omega)]

/-- **C3.** A per-chapter fetch failure (retry budget exhausted) is
converted locally into a record carrying the placeholder marker
`'Failed to load content'`; the download phase is a total function (it can
never reject), so once metadata and chapter discovery have succeeded the
run always reaches assembly, whatever the per-chapter fetch outcomes are. -/
theorem downloadPhase_absorbs_failures
    (metaFetch : Except String NovelMetadata)
    (site : String → Except String ListPage)
    (fetchCh : String → Except String ChapterPage)
    (delay c fuel : Nat) (novelUrl : String) (meta : NovelMetadata)
    (stubs : List ChapterStub) (trace : List String)
    (hmeta : metaFetch = .ok meta)
    (hlist : getChapterList site fuel novelUrl [] = .ok (stubs, trace)) :
    (∀ (ch : ChapterStub) (e : String), fetchCh ch.url = .error e →
        (processChapter fetchCh delay ch).1
          = ⟨ch.title, ch.url, "Failed to load content"⟩)
    ∧ crawl metaFetch site fetchCh delay c fuel novelUrl
        = .ok (buildEpubOptions meta
            (downloadAll (fun ch => (processChapter fetchCh delay ch).1) c stubs)) := by
  constructor
  · intro ch e he
    unfold processChapter getChapterContent
    rw [he]
  · unfold crawl
    rw [hmeta, hlist]
    rfl

/-- Witness for C3: discovery returns two stubs from one list page, the
second chapter's fetch fails; the run still assembles, and the failed
chapter's record is the placeholder. -/
theorem downloadPhase_absorbs_failures_witness :
    (processChapter
        (fun v => if v = "u1" then .error "boom"
          else .ok ⟨"T", "H", some "body"⟩) 200 ⟨"c1", "u1"⟩).1
      = ⟨"c1", "u1", "Failed to load content"⟩
    ∧ crawl (.ok ⟨"N", "D", "C", "A", ["G"], "S", "Src"⟩)
        (fun v => if v = "start"
          then .ok ⟨[⟨"c0", "u0"⟩, ⟨"c1", "u1"⟩], none⟩ else .error "404")
        (fun v => if v = "u1" then .error "boom"
          else .ok ⟨"T", "H", some "body"⟩)
        200 5 1 "start"
      = .ok (buildEpubOptions ⟨"N", "D", "C", "A", ["G"], "S", "Src"⟩
          (downloadAll (fun ch => (processChapter
            (fun v => if v = "u1" then .error "boom"
              else .ok ⟨"T", "H", some "body"⟩) 200 ch).1)
            5 [⟨"c0", "u0"⟩, ⟨"c1", "u1"⟩])) := by
  have h := downloadPhase_absorbs_failures
    (.ok ⟨"N", "D", "C", "A", ["G"], "S", "Src"⟩)
    (fun v => if v = "start"
      then .ok ⟨[⟨"c0", "u0"⟩, ⟨"c1", "u1"⟩], none⟩ else .error "404")
    (fun v => if v = "u1" then .error "boom"
      else .ok ⟨"T", "H", some "body"⟩)
    200 5 1 "start" ⟨"N", "D", "C", "A", ["G"], "S", "Src"⟩
    [⟨"c0", "u0"⟩, ⟨"c1", "u1"⟩] ["start"] rfl rfl
  exact ⟨h.1 ⟨"c1", "u1"⟩ "boom" rfl, h.2⟩

/-- **C4.** For a chain of `k` list pages (page `i` at URL `u i`, yielding
its stubs in document order, all but the last advertising the next page's
URL), discovery terminates with the concatenation of all pages' stubs in
page order and fetches exactly the `k` page URLs, one fetch per page, in
order. -/
theorem getChapterList_pagination (site : String → Except String ListPage)
    (pages : Nat → ListPage) (u : Nat → String) (k fuel : Nat)
    (hk : 1 ≤ k) (hfuel : k ≤ fuel)
    (hsite : ∀ i, i < k → site (u i) = .ok (pages i))
    (hnext : ∀ i, i < k →
      (pages i).nextPageLink = if i + 1 < k then some (u (i + 1)) else none) :
    getChapterList site fuel (u 0) []
      = .ok (((List.range k).map (fun i => (pages i).stubs)).flatten,
             (List.range k).map u)
    ∧ ((List.range k).map u).length = k := by
  constructor
  · have h := getChapterList_chain_from site pages u k hsite hnext fuel 0 []
      (by omega) (by omega)
    rw [h, List.range_eq_range']
    simp
  · simp

/-- Witness for C4: the spec's three-page mock chain; discovery returns the
six stubs in page order and fetches exactly the three page URLs. -/
theorem getChapterList_pagination_witness :
    getChapterList
        (fun v =>
          if v = "p0" then .ok ⟨[⟨"a", "ua"⟩, ⟨"b", "ub"⟩], some "p1"⟩
          else if v = "p1" then .ok ⟨[⟨"c", "uc"⟩, ⟨"d", "ud"⟩], some "p2"⟩
          else if v = "p2" then .ok ⟨[⟨"e", "ue"⟩, ⟨"f", "uf"⟩], none⟩
          else .error "404")
        3 "p0" []
      = .ok (((List.range 3).map
            (fun i => ((fun i => if i = 0
                then (⟨[⟨"a", "ua"⟩, ⟨"b", "ub"⟩], some "p1"⟩ : ListPage)
              else if i = 1 then ⟨[⟨"c", "uc"⟩, ⟨"d", "ud"⟩], some "p2"⟩
              else ⟨[⟨"e", "ue"⟩, ⟨"f", "uf"⟩], none⟩) i).stubs)).flatten,
          (List.range 3).map (fun i => "p" ++ toString i)) := by
  have h := getChapterList_pagination
    (fun v =>
      if v = "p0" then .ok ⟨[⟨"a", "ua"⟩, ⟨"b", "ub"⟩], some "p1"⟩
      else if v = "p1" then .ok ⟨[⟨"c", "uc"⟩, ⟨"d", "ud"⟩], some "p2"⟩
      else if v = "p2" then .ok ⟨[⟨"e", "ue"⟩, ⟨"f", "uf"⟩], none⟩
      else .error "404")
    (fun i => if i = 0 then ⟨[⟨"a", "ua"⟩, ⟨"b", "ub"⟩], some "p1"⟩
      else if i = 1 then ⟨[⟨"c", "uc"⟩, ⟨"d", "ud"⟩], some "p2"⟩
      else ⟨[⟨"e", "ue"⟩, ⟨"f", "uf"⟩], none⟩)
    (fun i => "p" ++ toString i) 3 3 (by omega) (by omega)
    (by intro i hi; interval_cases i <;> rfl)
    (by intro i hi; interval_cases i <;> rfl)
  exact h.1

/-- **C5.** An unrecoverable fetch failure on any chapter-list page aborts
discovery entirely: the walk returns the error rather than any partial
stub list, `crawl` rejects with that error once metadata has succeeded,
and the top-level catch exits with code 1 — in contrast to the
per-chapter download policy, which degrades failures to placeholders. -/
theorem getChapterList_failure_fatal (site : String → Except String ListPage)
    (pages : Nat → ListPage) (u : Nat → String) (j fuel : Nat) (e : String)
    (metaFetch : Except String NovelMetadata) (meta : NovelMetadata)
    (fetchCh : String → Except String ChapterPage) (delay c : Nat)
    (hfuel : j < fuel)
    (hsite : ∀ i, i < j → site (u i) = .ok (pages i))
    (hnext : ∀ i, i < j → (pages i).nextPageLink = some (u (i + 1)))
    (herr : site (u j) = .error e)
    (hmeta : metaFetch = .ok meta) :
    getChapterList site fuel (u 0) [] = .error e
    ∧ crawl metaFetch site fetchCh delay c fuel (u 0) = .error e
    ∧ crawlExitCode (crawl metaFetch site fetchCh delay c fuel (u 0)) = 1 := by
  have hlist := getChapterList_chain_error_from site pages u j e hsite hnext herr
    fuel 0 [] (by omega) (by omega)
  have hcrawl : crawl metaFetch site fetchCh delay c fuel (u 0) = .error e := by
    unfold crawl
    rw [hmeta, hlist]
    rfl
  exact ⟨hlist, hcrawl, by rw [hcrawl]; rfl⟩

/-- Witness for C5: a two-page chain whose second page's fetch fails; the
whole discovery and the whole run reject with that error and the process
exit code is 1. -/
theorem getChapterList_failure_fatal_witness :
    getChapterList
        (fun v => if v = "p0" then .ok ⟨[⟨"a", "ua"⟩], some "p1"⟩
          else .error "HTTP error! status: 503")
        2 "p0" []
      = .error "HTTP error! status: 503"
    ∧ crawlExitCode (crawl (.ok ⟨"N", "D", "C", "A", [], "S", "Src"⟩)
        (fun v => if v = "p0" then .ok ⟨[⟨"a", "ua"⟩], some "p1"⟩
          else .error "HTTP error! status: 503")
        (fun _ => .ok ⟨"T", "H", some "body"⟩) 200 5 2 "p0") = 1 := by
  have h := getChapterList_failure_fatal
    (fun v => if v = "p0" then .ok ⟨[⟨"a", "ua"⟩], some "p1"⟩
      else .error "HTTP error! status: 503")
    (fun _ => ⟨[⟨"a", "ua"⟩], some "p1"⟩)
    (fun i => "p" ++ toString i) 1 2 "HTTP error! status: 503"
    (.ok ⟨"N", "D", "C", "A", [], "S", "Src"⟩) ⟨"N", "D", "C", "A", [], "S", "Src"⟩
    (fun _ => .ok ⟨"T", "H", some "body"⟩) 200 5
    (by omega)
    (fun i hi => by interval_cases i; rfl)
    (fun i hi => by interval_cases i; rfl)
    rfl rfl
  exact ⟨h.1, h.2.2⟩

/-- Counterexample for C6: the claim says the inter-request delay is
observed on the failure path of `processChapter` as well.  In the code the
`await setTimeout(delayBetweenRequests)` sits inside the `try` block
*after* `getChapterContent`, so when the fetch fails the catch handler
returns the placeholder immediately: with `delay = 200` the failure path
waits 0, not 200. -/
theorem processChapter_delay_counterexample :
    (processChapter (fun _ => .error "network error") 200 ⟨"ch1", "u1"⟩).2 = 0
    ∧ (0 : Nat) ≠ 200 := ⟨rfl, by omega⟩

/-- **C6 (amended).** The rate-limiting delay is observed after
`getChapterContent` returns on the success path only: a task whose fetch
succeeds waits `interRequestDelay` before its result is final, while a task
whose fetch fails (after retry exhaustion) returns its placeholder record
immediately, without the inter-request delay. -/
theorem processChapter_delay_success_only
    (fetchCh : String → Except String ChapterPage) (delay : Nat)
    (ch : ChapterStub) :
    (∀ page, fetchCh ch.url = .ok page →
      (processChapter fetchCh delay ch).2 = delay)
    ∧ (∀ e, fetchCh ch.url = .error e →
      (processChapter fetchCh delay ch).2 = 0) := by
  constructor <;> intro x hx <;> unfold processChapter getChapterContent <;>
    rw [hx]

/-- Witness for C6 (amended): a succeeding fetch waits 200, a failing fetch
waits 0. -/
theorem processChapter_delay_success_only_witness :
    (processChapter (fun _ => .ok ⟨"T", "H", some "body"⟩) 200 ⟨"c", "u"⟩).2 = 200
    ∧ (processChapter (fun _ => .error "boom") 200 ⟨"c", "u"⟩).2 = 0 :=
  ⟨(processChapter_delay_success_only (fun _ => .ok ⟨"T", "H", some "body"⟩)
      200 ⟨"c", "u"⟩).1 ⟨"T", "H", some "body"⟩ rfl,
   (processChapter_delay_success_only (fun _ => .error "boom")
      200 ⟨"c", "u"⟩).2 "boom" rfl⟩

/-- **C7.** The output file name is derived by replacing every character
outside `[A-Za-z0-9]` with `_`: for a non-empty title the sanitized string
is non-empty and every character is ASCII-alphanumeric or `_` (i.e. it
matches `^[A-Za-z0-9_]+$`), and the output path is
`results/<sanitized-title>.epub` under the working directory. -/
theorem sanitizeTitle_spec (t : String) (h : t ≠ "") :
    (∀ c ∈ (sanitizeTitle t).data,
      ('a' ≤ c ∧ c ≤ 'z') ∨ ('A' ≤ c ∧ c ≤ 'Z') ∨ ('0' ≤ c ∧ c ≤ '9') ∨ c = '_')
    ∧ sanitizeTitle t ≠ ""
    ∧ epubOutputPath t = "results/" ++ sanitizeTitle t ++ ".epub" := by
  refine ⟨?_, ?_, rfl⟩
  · intro c hc
    unfold sanitizeTitle at hc
    rw [String.map_eq] at hc
    obtain ⟨a, _, rfl⟩ := List.mem_map.mp hc
    by_cases ha : ('a' ≤ a && a ≤ 'z') || ('A' ≤ a && a ≤ 'Z') || ('0' ≤ a && a ≤ '9')
    · rw [if_pos ha]
      simp only [Bool.or_eq_true, Bool.and_eq_true, decide_eq_true_eq] at ha
      rcases ha with (h1 | h2) | h3
      · exact Or.inl h1
      · exact Or.inr (Or.inl h2)
      · exact Or.inr (Or.inr (Or.inl h3))
    · rw [if_neg ha]
      exact Or.inr (Or.inr (Or.inr rfl))
  · intro hempty
    apply h
    apply String.ext
    have hdata : (sanitizeTitle t).data = [] := by rw [hempty]
    unfold sanitizeTitle at hdata
    rw [String.map_eq] at hdata
    exact List.map_eq_nil_iff.mp hdata

/-- Witness for C7, on the spec's own example title. -/
theorem sanitizeTitle_spec_witness :
    (∀ c ∈ (sanitizeTitle "Re:Zero − Starting Life!").data,
      ('a' ≤ c ∧ c ≤ 'z') ∨ ('A' ≤ c ∧ c ≤ 'Z') ∨ ('0' ≤ c ∧ c ≤ '9') ∨ c = '_')
    ∧ sanitizeTitle "Re:Zero − Starting Life!" ≠ ""
    ∧ epubOutputPath "Re:Zero − Starting Life!"
        = "results/" ++ sanitizeTitle "Re:Zero − Starting Life!" ++ ".epub" :=
  sanitizeTitle_spec "Re:Zero − Starting Life!" (by decide)

/-- **C8.** Assembly is a pure function: assembling twice from the same
metadata and records gives identical structures, the content array has one
entry per chapter record after the two front-matter pages, and each
chapter entry carries the record's title and its content string verbatim —
a placeholder marker is passed through unreinterpreted. -/
theorem buildEpubOptions_pure (meta : NovelMetadata)
    (chs : List ChapterRecord) :
    buildEpubOptions meta chs = buildEpubOptions meta chs
    ∧ (buildEpubOptions meta chs).content.length = chs.length + 2
    ∧ ∀ i, (hi : i < chs.length) →
        (buildEpubOptions meta chs).content[i + 2]?
          = some ⟨chs[i].title, chs[i].content, false, none⟩ := by
  refine ⟨rfl, by simp [buildEpubOptions], ?_⟩
  intro i hi
  show (⟨"Cover", getCoverXhtmlContent meta, true, some "cover.xhtml"⟩ ::
      ⟨"Information", infoPageData meta, true, none⟩ ::
      chs.map (fun ch => ⟨ch.title, ch.content, false, none⟩) :
      List ContentItem)[i + 2]? = _
  rw [show i + 2 = i + 1 + 1 by omega, List.getElem?_cons_succ,
    List.getElem?_cons_succ, List.getElem?_map, List.getElem?_eq_getElem hi]
  rfl

/-- Witness for C8: two records, the second carrying the placeholder
marker; its content entry is the placeholder verbatim. -/
theorem buildEpubOptions_pure_witness :
    (buildEpubOptions ⟨"N", "D", "C", "A", ["G"], "S", "Src"⟩
        [⟨"c0", "u0", "<p>hi</p>"⟩, ⟨"c1", "u1", "Failed to load content"⟩]).content.length
      = 2 + 2
    ∧ (buildEpubOptions ⟨"N", "D", "C", "A", ["G"], "S", "Src"⟩
        [⟨"c0", "u0", "<p>hi</p>"⟩, ⟨"c1", "u1", "Failed to load content"⟩]).content[1 + 2]?
      = some ⟨"c1", "Failed to load content", false, none⟩ := by
  have h := buildEpubOptions_pure ⟨"N", "D", "C", "A", ["G"], "S", "Src"⟩
    [⟨"c0", "u0", "<p>hi</p>"⟩, ⟨"c1", "u1", "Failed to load content"⟩]
  exact ⟨h.2.1, h.2.2 1 (by simp)⟩

/-- **C9.** With no positional URL argument the program prints the usage
error to stderr and exits with code 1 without invoking the crawler (so no
fetch is performed: the fetch trace is empty for every possible crawl
function); when the crawl run rejects with an unrecoverable error the
program prints the error and exits with code 1. -/
theorem mainProgram_cli
    (runCrawl : String → Except String EpubOptions × List String)
    (url e : String) (fetches : List String) :
    mainProgram none runCrawl
      = (1, ["Please provide a novel URL as an argument"], [])
    ∧ (runCrawl url = (.error e, fetches) →
        mainProgram (some url) runCrawl
          = (1, ["Crawler error: " ++ e], fetches)) := by
  refine ⟨rfl, ?_⟩
  intro hrun
  show (match runCrawl url with
    | (Except.ok _, fetches) => ((0 : Nat), ([] : List String), fetches)
    | (Except.error e, fetches) => (1, ["Crawler error: " ++ e], fetches))
    = (1, ["Crawler error: " ++ e], fetches)
  rw [hrun]

/-- Witness for C9: a crawl run rejecting with a connection error exits
with code 1 and prints it; the missing-argument case exits 1 with the
usage message and an empty fetch trace. -/
theorem mainProgram_cli_witness :
    mainProgram none (fun _ => (.error "ECONNREFUSED", ["p0"]))
      = (1, ["Please provide a novel URL as an argument"], [])
    ∧ mainProgram (some "https://example.test/novel")
        (fun _ => (.error "ECONNREFUSED", ["p0"]))
      = (1, ["Crawler error: " ++ "ECONNREFUSED"], ["p0"]) :=
  ⟨(mainProgram_cli (fun _ => (.error "ECONNREFUSED", ["p0"]))
      "https://example.test/novel" "ECONNREFUSED" ["p0"]).1,
   (mainProgram_cli (fun _ => (.error "ECONNREFUSED", ["p0"]))
      "https://example.test/novel" "ECONNREFUSED" ["p0"]).2 rfl⟩

/-- **C10.** A successfully fetched chapter page whose content selector
matches nothing does not raise: `getChapterContent` returns the sentinel
`'Chapter content not found'` (the cleanup chain leaves it untouched),
which is distinct from the fetch-failure placeholder
`'Failed to load content'`, so the chapter is recorded as a normal
(non-failed) record carrying that sentinel. -/
theorem getChapterContent_missing_selector
    (fetchCh : String → Except String ChapterPage) (st : ChapterStub)
    (page : ChapterPage) (delay : Nat)
    (h : fetchCh st.url = .ok page) (hc : page.contentHtml = none) :
    getChapterContent fetchCh st.url
      = .ok ⟨jsTrim page.truyenTitle ++ " - " ++ jsTrim page.heading,
             "Chapter content not found"⟩
    ∧ (processChapter fetchCh delay st).1
        = ⟨st.title, st.url, "Chapter content not found"⟩
    ∧ "Chapter content not found" ≠ "Failed to load content" := by
  have hclean : cleanContent "Chapter content not found"
      = "Chapter content not found" := by decide
  have h1 : getChapterContent fetchCh st.url
      = .ok ⟨jsTrim page.truyenTitle ++ " - " ++ jsTrim page.heading,
             "Chapter content not found"⟩ := by
    unfold getChapterContent
    rw [h]
    show (Except.ok ⟨jsTrim page.truyenTitle ++ " - " ++ jsTrim page.heading,
        cleanContent (page.contentHtml.getD "Chapter content not found")⟩ :
        Except String TitleContent)
      = .ok ⟨jsTrim page.truyenTitle ++ " - " ++ jsTrim page.heading,
             "Chapter content not found"⟩
    rw [hc, Option.getD_none, hclean]
  refine ⟨h1, ?_, by decide⟩
  unfold processChapter
  rw [h1]

/-- Witness for C10: a fetch that succeeds with an absent
`#chapter-content` element yields a normal record with the
`'Chapter content not found'` sentinel. -/
theorem getChapterContent_missing_selector_witness :
    getChapterContent (fun _ => .ok ⟨" My Novel ", "Chapter 3", none⟩) "u3"
      = .ok ⟨"My Novel - Chapter 3", "Chapter content not found"⟩
    ∧ (processChapter (fun _ => .ok ⟨" My Novel ", "Chapter 3", none⟩)
        200 ⟨"c3", "u3"⟩).1
      = ⟨"c3", "u3", "Chapter content not found"⟩ := by
  have h := getChapterContent_missing_selector
    (fun _ => .ok ⟨" My Novel ", "Chapter 3", none⟩) ⟨"c3", "u3"⟩
    ⟨" My Novel ", "Chapter 3", none⟩ 200 rfl rfl
  exact ⟨by rw [h.1]; exact congrArg Except.ok (by decide), h.2.1⟩
